import Mathlib

/-!
Verification of the lock-free LIFO stack of `src/lifo.rs` (the
implementation of the algorithm in WG21 paper P1726R1).

The code is embedded shallowly.  Machine state touched by one atomic
instruction at a time is modelled functionally: each operation is a pure
function from the state it reads to the state it leaves, taken at the
linearization point of the operation.

For the two concurrent operations this is justified as follows.

The CAS retry loop of `AtomicOptionBox::spin_swap` (used by
`LifoPush::push`) only ever writes shared state at its single successful
`compare_exchange_weak`; every failed iteration merely copies the observed
`top` into the private `newnode.next` expectation holder and retries.  The
successful CAS therefore has the net effect: the pushed node, whose `next`
field holds exactly the value `top` held immediately before the CAS,
becomes the new `top`.

The detach in `LifoPush::pop_all` is one unconditional atomic `swap`
(`AtomicOptionBox::take`); after it the walked chain is owned exclusively
by the caller and the walk is single threaded.

Consequently every concurrent execution is equivalent to a linearized
history: a list of `push v` / `pop_all` events applied atomically in some
order compatible with each thread.  The interleaving semantics `run`
below quantifies over those histories.

One committed construct needs special care.  The body of
`impl Default for AtomicOptionBox` is

  `Self { ptr, ..Default::default() }`

and the body of `AtomicOptionBox::take` ends in
`Self { ptr: p, ..Default::default() }`.  In Rust the functional update
base after `..` has the type of the struct being built and is evaluated
in full, so both expressions call `AtomicOptionBox::<T>::default()` —
in `default` itself this is an unconditional self call (the recursion
rustc flags with its `unconditional_recursion` lint).  Hence the
committed `default` never returns, and neither does anything that
evaluates it: `take` (hence `pop_all`), `Node::new` (whose `next`
field initializer is `Default::default()`, hence `push`), and the
derived `Default` of `LifoPush`.  The file therefore contains two
layers:

* fuel bounded models, suffixed `Fuel`, of every source function whose
  body evaluates `Default::default()`, faithful to the committed bodies;
  the divergence theorems show they return no value at any recursion
  depth;
* the intended algorithm of the paper and of the specification, in
  which that base is the null slot: the remaining definitions, whose
  doc comments state exactly where they depart from the committed text.
  The behavioural theorems about order, conservation and the paper
  scenario hold of this layer.
-/

namespace Lifo

variable {α σ : Type}

/-- Rust `std::sync::atomic::Ordering`, as passed around by the source. -/
inductive Ordering where
  | Relaxed
  | Acquire
  | Release
  | AcqRel
  | SeqCst
deriving DecidableEq

/-- Whether an ordering gives at least release semantics to a store
(or to the store half of a read-modify-write). -/
def Ordering.isAtLeastRelease : Ordering → Bool
  | .Release | .AcqRel | .SeqCst => true
  | _ => false

/-- Whether an ordering gives at least acquire semantics to a load
(or to the load half of a read-modify-write). -/
def Ordering.isAtLeastAcquire : Ordering → Bool
  | .Acquire | .AcqRel | .SeqCst => true
  | _ => false

/-- Rust struct `AtomicOptionBox<T>` of `src/lifo.rs`: one atomic word
`ptr` that is either null (`none`) or owns a heap allocated `T`
(`some t`).  The `PhantomData` marker field carries no state and is
dropped from the model. -/
inductive AtomicOptionBox (α : Type) where
  | mk (ptr : Option α)

/-- Projection of the single field `ptr` of `AtomicOptionBox`. -/
def AtomicOptionBox.ptr : AtomicOptionBox α → Option α
  | .mk p => p

/-- Rust `impl Default for AtomicOptionBox`, modelled faithfully.  The
body binds the null word, then evaluates the functional update base
`..Default::default()` — a call of this very function — and only then
would assemble the result, taking the `PhantomData` marker from the
base.  The recursion is unconditional; `fuel` bounds its depth, and
`none` means the call has not returned within that depth. -/
def AtomicOptionBox.defaultFuel (α : Type) : Nat → Option (AtomicOptionBox α)
  | 0 => none
  | fuel + 1 =>
    match AtomicOptionBox.defaultFuel α fuel with
    | none => none
    | some _base => some (.mk none)

/-- Modelled from the spec: the empty (null) slot that
`impl Default for AtomicOptionBox` is specified to produce (data model:
created empty (null)), and the value the committed body would assemble
if its `..Default::default()` base returned.  The committed body
recurses unconditionally instead — see `AtomicOptionBox.defaultFuel`.
The definitions of the intended algorithm below use this value wherever
the source evaluates `Default::default()`. -/
def AtomicOptionBox.default : AtomicOptionBox α :=
  .mk none

/-- Rust `AtomicOptionBox::is_none`: a relaxed load, true iff the word is
null. -/
def AtomicOptionBox.is_none (self : AtomicOptionBox α) : Bool :=
  self.ptr.isNone

/-- Rust `AtomicOptionBox::take`, modelled faithfully.  The atomic
`swap` writes null into `self` and yields the old word `p`; the final
struct expression `Self { ptr: p, ..Default::default() }` then evaluates
its base, which never returns (`AtomicOptionBox.defaultFuel`), so the
handle is never assembled.  `none` means the call has not returned
within `fuel`. -/
def AtomicOptionBox.takeFuel (self : AtomicOptionBox α) (order : Ordering)
    (fuel : Nat) : Option (AtomicOptionBox α × AtomicOptionBox α) :=
  match AtomicOptionBox.defaultFuel α fuel with
  | none => none
  | some _base => some (.mk none, .mk self.ptr)

/-- Intended `AtomicOptionBox::take`: one atomic `swap` writing null
into `self` and returning a fresh box built around the old word.  The
result pair is (state of `self` after the swap, the returned box).
This is the committed body with the diverging `..Default::default()`
base replaced by the null slot it is specified to supply (it only
contributes the `PhantomData` marker).  The `order` argument is the
ordering annotation of the `swap`; it has no functional content at a
linearization point. -/
def AtomicOptionBox.take (self : AtomicOptionBox α) (order : Ordering) :
    AtomicOptionBox α × AtomicOptionBox α :=
  (.mk none, .mk self.ptr)

/-- Rust `AtomicOptionBox::unwrap`: loads the word (with the given
ordering annotation) and, when it is null, panics — modelled as `none`.
Otherwise it moves the pointee out of the heap cell and returns it.  The
source performs no store to `self.ptr`, so the slot after the call is
`self` unchanged; the model returns it alongside the payload. -/
def AtomicOptionBox.unwrap (self : AtomicOptionBox α) (ordering : Ordering) :
    Option (α × AtomicOptionBox α) :=
  match self.ptr with
  | none => none
  | some v => some (v, self)

/-- Net effect of Rust `AtomicOptionBox::spin_swap` at its successful
`compare_exchange_weak`.  In the source, `current` points at the `next`
field inside the node being pushed and `new` points at that node itself,
so the value actually published depends on the contents of `current` at
the instant the CAS succeeds; the model expresses this aliasing by taking
the candidate as a function `mkNew` of the expectation holder.  Failed
iterations only rewrite the private expectation holder and spin, so the
loop as a whole atomically installs `mkNew` applied to a box around the
old word.  `success` and `failure` are the ordering annotations of the
CAS. -/
def AtomicOptionBox.spin_swap (self : AtomicOptionBox α)
    (mkNew : AtomicOptionBox α → α) (success failure : Ordering) :
    AtomicOptionBox α :=
  .mk (some (mkNew (.mk self.ptr)))

/-- Rust struct `Node<T>`: a payload `val` and a `next` slot of type
`AtomicOptionBox<Node<T>>` (null terminates the chain). -/
inductive Node (α : Type) where
  | mk (val : α) (next : AtomicOptionBox (Node α))

/-- Projection of the `val` field of `Node`. -/
def Node.val : Node α → α
  | .mk v _ => v

/-- Projection of the `next` field of `Node`. -/
def Node.next : Node α → AtomicOptionBox (Node α)
  | .mk _ n => n

/-- Rust `Node::new`, modelled faithfully: the field initializer of
`next` is `Default::default()` of type `AtomicOptionBox<Node<T>>`,
which never returns, so the node is never built.  `none` means the call
has not returned within `fuel`. -/
def Node.newFuel (val : α) (fuel : Nat) : Option (Node α) :=
  match AtomicOptionBox.defaultFuel (Node α) fuel with
  | none => none
  | some next => some (.mk val next)

/-- Intended `Node::new`: payload `val`, `next` the null slot that its
`Default::default()` initializer is specified to produce (the committed
initializer diverges, see `Node.newFuel`). -/
def Node.new (val : α) : Node α :=
  .mk val AtomicOptionBox.default

/-- Rust `Node::into_inner`: destructures an exclusively owned node into
`(next, val)`. -/
def Node.into_inner : Node α → AtomicOptionBox (Node α) × α
  | .mk v n => (n, v)

/-- Rust struct `LifoPush<T>`: the stack is the single slot `top`. -/
structure LifoPush (α : Type) where
  top : AtomicOptionBox (Node α)

/-- Rust `#[derive(Default)]` for `LifoPush`, modelled faithfully: the
derived body builds `top` with `AtomicOptionBox::<Node<T>>::default()`,
which never returns.  `none` means the call has not returned within
`fuel`. -/
def LifoPush.defaultFuel (fuel : Nat) : Option (LifoPush α) :=
  match AtomicOptionBox.defaultFuel (Node α) fuel with
  | none => none
  | some top => some ⟨top⟩

/-- Intended `Default` for `LifoPush`: `top` starts null (the committed
derive diverges, see `LifoPush.defaultFuel`). -/
def LifoPush.default : LifoPush α :=
  ⟨AtomicOptionBox.default⟩

/-- Rust `LifoPush::list_empty`. -/
def LifoPush.list_empty (self : LifoPush α) : Bool :=
  self.top.is_none

/-- Ordering annotation passed by `LifoPush::push` to `spin_swap` for the
successful CAS: `Ordering::Release` (line 116 of the source). -/
def pushSuccessOrdering : Ordering :=
  .Release

/-- Ordering annotation passed by `LifoPush::push` to `spin_swap` for a
failed CAS: `Ordering::Relaxed` (line 116 of the source). -/
def pushFailureOrdering : Ordering :=
  .Relaxed

/-- Ordering annotation of the detaching `take` in `LifoPush::pop_all`:
`Ordering::Relaxed` (line 124 of the source). -/
def popAllTakeOrdering : Ordering :=
  .Relaxed

/-- Ordering annotation of the `unwrap` load in the walk of
`LifoPush::pop_all`: `Ordering::Acquire` (line 128 of the source). -/
def popAllUnwrapOrdering : Ordering :=
  .Acquire

/-- Rust `LifoPush::push`, modelled faithfully: the body first builds
`newnode = Box::new(Node::new(val))`, and `Node::new` never returns, so
the CAS loop is never reached.  `none` means the call has not returned
within `fuel`. -/
def LifoPush.pushFuel (self : LifoPush α) (val : α) (fuel : Nat) :
    Option (LifoPush α) :=
  match Node.newFuel (α := α) val fuel with
  | none => none
  | some _newnode =>
    some ⟨self.top.spin_swap (fun next => Node.mk val next)
      pushSuccessOrdering pushFailureOrdering⟩

/-- Intended `LifoPush::push`: builds `newnode = Node::new(val)` (with
the intended `Node.new`; the committed one diverges, see
`LifoPush.pushFuel`) and runs
`top.spin_swap(&mut newnode.next, newnode, Release, Relaxed)`.  Because
`current` is the `next` field of the node being published, the candidate
is the node whose `next` is whatever `spin_swap` leaves in the
expectation holder — the old `top`. -/
def LifoPush.push (self : LifoPush α) (val : α) : LifoPush α :=
  { top := self.top.spin_swap (fun next => Node.mk val next)
      pushSuccessOrdering pushFailureOrdering }

/-- One iteration of the walk of `LifoPush::pop_all` on a non-null head,
fused with the loop guard of the following iteration:
`head.unwrap(Acquire).into_inner()` gives `(next, item)`; `item` is
delivered and the walk continues at `next` while it is non-null. -/
def Node.drain : Node α → List α
  | .mk item (.mk none) => [item]
  | .mk item (.mk (some n)) => item :: Node.drain n

/-- The `while !head.is_none()` walk of `LifoPush::pop_all`, with the
consumer reified as the list of values it receives, in delivery order.
The `none` pattern is the loop guard, so the `unwrap` inside
`Node.drain` never hits a null word. -/
def popAllWalk : AtomicOptionBox (Node α) → List α
  | .mk none => []
  | .mk (some n) => n.drain

/-- Rust `LifoPush::pop_all`, modelled faithfully: the body first calls
`take(Relaxed)`, which never returns, so the walk is never reached and
the consumer is never invoked.  `none` means the call has not returned
within `fuel`. -/
def LifoPush.popAllFuel (self : LifoPush α) (fuel : Nat) :
    Option (LifoPush α × List α) :=
  match self.top.takeFuel popAllTakeOrdering fuel with
  | none => none
  | some t => some ({ top := t.1 }, popAllWalk t.2)

/-- Intended `LifoPush::pop_all`: one atomic `take(Relaxed)` (with the
intended `take`; the committed one diverges, see `LifoPush.popAllFuel`)
detaches the whole chain, then the single threaded walk consumes it.
Result: the stack after the detach, and the delivered values in
delivery order. -/
def LifoPush.pop_all (self : LifoPush α) : LifoPush α × List α :=
  let t := self.top.take popAllTakeOrdering
  ({ top := t.1 }, popAllWalk t.2)

/-- Counterpart of `Node.drain` with the consumer kept as a state
passing function, matching the `FnMut(T)` closure of the source (`σ` is
the captured environment of the closure, threaded through each call). -/
def Node.drainF (f : σ → α → σ) : σ → Node α → σ
  | acc, .mk item (.mk none) => f acc item
  | acc, .mk item (.mk (some n)) => Node.drainF f (f acc item) n

/-- The walk of `pop_all` with the consumer as a state passing
function. -/
def popAllWalkF (f : σ → α → σ) (acc : σ) : AtomicOptionBox (Node α) → σ
  | .mk none => acc
  | .mk (some n) => Node.drainF f acc n

/-- Rust `LifoPush::pop_all` with the consumer as a state passing
function, modelled faithfully: the leading `take(Relaxed)` never
returns, so the consumer is never invoked.  `none` means the call has
not returned within `fuel`. -/
def LifoPush.popAllFFuel (self : LifoPush α) (f : σ → α → σ) (acc : σ)
    (fuel : Nat) : Option (LifoPush α × σ) :=
  match self.top.takeFuel popAllTakeOrdering fuel with
  | none => none
  | some t => some ({ top := t.1 }, popAllWalkF f acc t.2)

/-- Intended `LifoPush::pop_all` with the consumer as a state passing
function: returns the stack after the detach and the final consumer
state. -/
def LifoPush.pop_all_f (self : LifoPush α) (f : σ → α → σ) (acc : σ) :
    LifoPush α × σ :=
  let t := self.top.take popAllTakeOrdering
  ({ top := t.1 }, popAllWalkF f acc t.2)

/-- Abstraction function, written from the data model of the spec: the
values of the chain starting at a node, most recently linked first. -/
def Node.chain : Node α → List α
  | .mk v (.mk none) => [v]
  | .mk v (.mk (some n)) => v :: Node.chain n

/-- Abstraction function: the values of the chain hanging off a slot,
most recently linked first. -/
def chainOf : AtomicOptionBox (Node α) → List α
  | .mk none => []
  | .mk (some n) => n.chain

/-- One client operation of the stack, identified with its single atomic
effect on the shared `top` slot: for `push` the successful CAS of
`spin_swap`, for `pop_all` the detaching `take` (the subsequent walk
touches only the exclusively owned detached chain). -/
inductive Op (α : Type) where
  | push (v : α)
  | popAll

/-- Effect of one linearized operation: the stack afterwards, together
with the values delivered to the consumer of that operation (`[]` for a
push). -/
def applyOp (s : LifoPush α) : Op α → LifoPush α × List α
  | .push v => (s.push v, [])
  | .popAll => s.pop_all

/-- Runs a linearized history from `s`: the final stack and, aligned
with the history, the values each operation delivered (`[]` for push
operations). -/
def run : LifoPush α → List (Op α) → LifoPush α × List (List α)
  | s, [] => (s, [])
  | s, op :: ops =>
    let r := applyOp s op
    let rest := run r.1 ops
    (rest.1, r.2 :: rest.2)

/-- The values pushed by a history, in order. -/
def pushedVals : List (Op α) → List α
  | [] => []
  | .push v :: ops => v :: pushedVals ops
  | .popAll :: ops => pushedVals ops

/-- The stack at the start of the paper scenario of the test module: a
default stack with `45` pushed before the two threads begin. -/
def paperInit : LifoPush Int :=
  LifoPush.default.push 45

/-- The linearized histories of the paper scenario: thread A contributes
the single atomic event `push 67`; thread B contributes, in program
order, `pop_all`, `push 89`, `pop_all`.  The event of A can fall before,
between, or after the three events of B, giving exactly these four
histories. -/
def paperHistories : List (List (Op Int)) :=
  [[Op.push 67, Op.popAll, Op.push 89, Op.popAll],
   [Op.popAll, Op.push 67, Op.push 89, Op.popAll],
   [Op.popAll, Op.push 89, Op.push 67, Op.popAll],
   [Op.popAll, Op.push 89, Op.popAll, Op.push 67]]

/-- Rebuilding a box around its own word is the identity. -/
theorem AtomicOptionBox.mk_ptr (b : AtomicOptionBox α) : AtomicOptionBox.mk b.ptr = b := by
  cases b with
  | mk p => rfl

/-- The delivery order of the walk of `pop_all` is the chain order. -/
theorem Node.drain_eq_chain : ∀ n : Node α, n.drain = n.chain
  | .mk _ (.mk none) => rfl
  | .mk v (.mk (some n)) => by
    rw [Node.drain, Node.chain, Node.drain_eq_chain n]

/-- Slot level version of `Node.drain_eq_chain`. -/
theorem popAllWalk_eq_chainOf (b : AtomicOptionBox (Node α)) : popAllWalk b = chainOf b := by
  cases b with
  | mk p =>
    cases p with
    | none => rfl
    | some n => exact Node.drain_eq_chain n

/-- Chain of a freshly built node: its value in front of the chain of
its `next` slot. -/
theorem Node.chain_mk (v : α) (b : AtomicOptionBox (Node α)) :
    (Node.mk v b).chain = v :: chainOf b := by
  cases b with
  | mk p =>
    cases p with
    | none => rfl
    | some n => rfl

/-- Effect of `push` on the abstract chain: the value goes in front. -/
theorem chain_push (s : LifoPush α) (v : α) :
    chainOf (s.push v).top = v :: chainOf s.top := by
  show (Node.mk v (.mk s.top.ptr)).chain = v :: chainOf s.top
  rw [Node.chain_mk, AtomicOptionBox.mk_ptr]

/-- Closed form of `pop_all`: the stack is emptied and the delivered
values are exactly the abstract chain, in chain order. -/
theorem pop_all_spec (s : LifoPush α) :
    s.pop_all = (⟨AtomicOptionBox.mk none⟩, chainOf s.top) := by
  show (LifoPush.mk (AtomicOptionBox.mk none), popAllWalk (AtomicOptionBox.mk s.top.ptr)) = _
  rw [AtomicOptionBox.mk_ptr, popAllWalk_eq_chainOf]

/-- The state passing walk is the left fold of the consumer over the
delivery order of the walk. -/
theorem Node.drainF_eq_foldl (f : σ → α → σ) :
    ∀ (acc : σ) (n : Node α), Node.drainF f acc n = List.foldl f acc n.drain
  | _, .mk _ (.mk none) => rfl
  | acc, .mk v (.mk (some n)) => by
    rw [Node.drainF, Node.drain, List.foldl, Node.drainF_eq_foldl f (f acc v) n]

/-- Slot level version of `Node.drainF_eq_foldl`. -/
theorem popAllWalkF_eq_foldl (f : σ → α → σ) (acc : σ) (b : AtomicOptionBox (Node α)) :
    popAllWalkF f acc b = List.foldl f acc (popAllWalk b) := by
  cases b with
  | mk p =>
    cases p with
    | none => rfl
    | some n => exact Node.drainF_eq_foldl f acc n

/-- Closed form of `pop_all_f`: the stack is emptied and the consumer
state is folded over the whole abstract chain. -/
theorem pop_all_f_spec (s : LifoPush α) (f : σ → α → σ) (acc : σ) :
    s.pop_all_f f acc = (⟨AtomicOptionBox.mk none⟩, List.foldl f acc (chainOf s.top)) := by
  show (LifoPush.mk (AtomicOptionBox.mk none), popAllWalkF f acc (AtomicOptionBox.mk s.top.ptr)) = _
  rw [AtomicOptionBox.mk_ptr, popAllWalkF_eq_foldl, popAllWalk_eq_chainOf]

/-- Conservation along any linearized history: the values delivered to
consumers plus the values still in the final chain are a permutation of
the values pushed plus the values of the initial chain. -/
theorem run_chain_perm : ∀ (ops : List (Op α)) (s : LifoPush α),
    List.Perm ((run s ops).2.flatten ++ chainOf (run s ops).1.top)
      (pushedVals ops ++ chainOf s.top)
  | [], s => by simp [run, pushedVals]
  | Op.push v :: ops, s => by
    have ih := run_chain_perm ops (s.push v)
    rw [chain_push] at ih
    simp only [run, applyOp, pushedVals, List.flatten_cons, List.nil_append,
      List.cons_append]
    exact ih.trans List.perm_middle
  | Op.popAll :: ops, s => by
    have ih := run_chain_perm ops (⟨AtomicOptionBox.mk none⟩ : LifoPush α)
    rw [show chainOf ((⟨AtomicOptionBox.mk none⟩ : LifoPush α).top) = [] from rfl,
      List.append_nil] at ih
    simp only [run, applyOp, pop_all_spec, pushedVals, List.flatten_cons,
      List.append_assoc]
    exact ((ih.append_left (chainOf s.top)).trans List.perm_append_comm)

/-- Chain after a sequence of pushes: the pushed values in reverse push
order, in front of the old chain. -/
theorem chain_foldl_push : ∀ (l : List α) (s : LifoPush α),
    chainOf (List.foldl LifoPush.push s l).top = l.reverse ++ chainOf s.top
  | [], _ => by simp [List.foldl]
  | v :: l, s => by
    simp [List.foldl, chain_foldl_push l (s.push v), chain_push]

/-- The committed `AtomicOptionBox::default` never returns: at every
recursion depth the call is still recursing. -/
theorem defaultFuel_never_returns :
    ∀ fuel : Nat, AtomicOptionBox.defaultFuel α fuel = none
  | 0 => rfl
  | fuel + 1 => by
    rw [AtomicOptionBox.defaultFuel, defaultFuel_never_returns fuel]

/-- Intended algorithm.  Along every linearized history of `push` and
`pop_all` calls starting from a fresh stack, the values delivered to
the consumers of all `pop_all` invocations, together with the values
still linked in the final stack, are a permutation of the values
pushed: no pushed value is lost and none is delivered twice, and since
the deliveries of distinct `pop_all` invocations are distinct entries
of `(run ...).2`, each value is delivered by exactly one invocation. -/
theorem no_loss_no_duplication (ops : List (Op α)) :
    List.Perm
      ((run LifoPush.default ops).2.flatten ++ chainOf (run LifoPush.default ops).1.top)
      (pushedVals ops) := by
  have h := run_chain_perm ops (LifoPush.default (α := α))
  rw [show chainOf ((LifoPush.default (α := α)).top) = [] from rfl, List.append_nil] at h
  exact h

/-- Intended algorithm.  The values linked in the stack at the moment
of the detach of one `pop_all` are delivered to its consumer in reverse
order of their linking, most recently pushed first: after pushing
`v1, ..., vn` onto a stack, `pop_all` delivers `vn, ..., v1` and then
the values the stack held before. -/
theorem lifo_order_within_drain (l : List α) (s : LifoPush α) :
    ((List.foldl LifoPush.push s l).pop_all).2 = l.reverse ++ chainOf s.top := by
  rw [pop_all_spec, chain_foldl_push]

/-- Intended algorithm.  The values the default constructors are meant
to produce are empty containers: the intended fresh `AtomicOptionBox`
satisfies `is_none` and the intended fresh `LifoPush` satisfies
`list_empty`. -/
theorem constructed_empty (α : Type) :
    (AtomicOptionBox.default (α := α)).is_none = true
      ∧ (LifoPush.default (α := α)).list_empty = true :=
  ⟨rfl, rfl⟩

/-- Intended algorithm.  `pop_all` with a consumer terminates on every
finite chain (it is a total function of the model) and returns only
after the consumer has been folded over every value of the chain it
detached: the final consumer state is the left fold over the whole
chain, and the delivered values are exactly that chain. -/
theorem pop_all_terminates_consuming_chain (s : LifoPush α) (f : σ → α → σ) (acc : σ) :
    s.pop_all_f f acc = ((s.pop_all).1, List.foldl f acc (chainOf s.top))
      ∧ (s.pop_all).2 = chainOf s.top := by
  rw [pop_all_f_spec, pop_all_spec]
  exact ⟨rfl, rfl⟩

/-- Intended algorithm.  `take` exchanges the content of the slot for
empty: afterwards the slot itself is empty, and the returned handle
holds exactly the word the slot held before the call (the old value, or
null if it was empty). -/
theorem take_exchanges_content (b : AtomicOptionBox α) (order : Ordering) :
    (b.take order).1.is_none = true ∧ (b.take order).2.ptr = b.ptr :=
  ⟨rfl, rfl⟩

/-- C6.  `unwrap` on an empty (null) slot panics (the `none` branch of
the model) rather than returning any value, and `unwrap` on a slot
known non-empty — such as a handle owning the word a non-empty slot
held — never fails: it returns the owned payload. -/
theorem unwrap_contract (α : Type) (ordering : Ordering) :
    ((AtomicOptionBox.mk (none : Option α)).unwrap ordering = none)
      ∧ ∀ (b : AtomicOptionBox α) (v : α),
          b.ptr = some v →
          (b.unwrap ordering).map Prod.fst = some v := by
  refine ⟨rfl, ?_⟩
  intro b v h
  cases b with
  | mk p =>
    have hp : p = some v := by simpa [AtomicOptionBox.ptr] using h
    subst hp
    rfl

/-- Witness for C6 at a concrete slot holding `5`. -/
theorem unwrap_contract_witness :
    ((AtomicOptionBox.mk (none : Option Nat)).unwrap Ordering.Acquire = none)
      ∧ ((AtomicOptionBox.mk (some (5 : Nat))).unwrap Ordering.Acquire).map Prod.fst
          = some 5 :=
  ⟨(unwrap_contract Nat Ordering.Acquire).1,
   (unwrap_contract Nat Ordering.Acquire).2 (AtomicOptionBox.mk (some 5)) 5 rfl⟩

/-- Intended algorithm.  Draining an empty stack delivers nothing to
the consumer and leaves the stack empty. -/
theorem empty_drain_idempotent (α : Type) :
    ((LifoPush.default (α := α)).pop_all).2 = []
      ∧ ((LifoPush.default (α := α)).pop_all).1.list_empty = true :=
  ⟨rfl, rfl⟩

/-- C8.  The publishing CAS of `push` uses at least release ordering on
success, and the detach of `pop_all` — its `take` paired with the
subsequent `unwrap` load — uses at least acquire ordering, the acquire
being carried by the `unwrap` of each detached node.  Under the
release/acquire axioms of the C++/Rust memory model this pairing makes
the initialized payload and `next` field of a newly linked node visible
to the consumer thread. -/
theorem ordering_contract :
    pushSuccessOrdering.isAtLeastRelease = true
      ∧ popAllUnwrapOrdering.isAtLeastAcquire = true :=
  ⟨rfl, rfl⟩

/-- Intended algorithm.  In every linearized history of the paper race
scenario (stack starts with `45`; thread A pushes `67`; thread B
drains, pushes `89`, drains again), the sum of all values delivered to
the consumers of the two `pop_all` calls of thread B is exactly `134`
or exactly `201`, and no element is lost: the delivered sum plus the
sum left in the stack is always `201 = 45 + 67 + 89`. -/
theorem paper_scenario_sum (ops : List (Op Int)) (h : ops ∈ paperHistories) :
    ((run paperInit ops).2.flatten.sum = 134 ∨ (run paperInit ops).2.flatten.sum = 201)
      ∧ (run paperInit ops).2.flatten.sum + (chainOf (run paperInit ops).1.top).sum = 201 := by
  simp only [paperHistories, List.mem_cons, List.not_mem_nil, or_false] at h
  rcases h with h | h | h | h <;> subst h <;> exact ⟨by decide, by decide⟩

/-- Instance of `paper_scenario_sum` at the history where the push of
thread A linearizes first. -/
theorem paper_scenario_sum_witness :
    ((run paperInit [Op.push 67, Op.popAll, Op.push 89, Op.popAll]).2.flatten.sum = 134
        ∨ (run paperInit [Op.push 67, Op.popAll, Op.push 89, Op.popAll]).2.flatten.sum = 201)
      ∧ (run paperInit [Op.push 67, Op.popAll, Op.push 89, Op.popAll]).2.flatten.sum
          + (chainOf (run paperInit [Op.push 67, Op.popAll, Op.push 89, Op.popAll]).1.top).sum
          = 201 :=
  paper_scenario_sum [Op.push 67, Op.popAll, Op.push 89, Op.popAll]
    (by simp [paperHistories])

/-- C10.  A successful `unwrap` performs no store: the slot keeps its
old word (the returned slot is the argument itself, unchanged), so
`is_none` on that slot still answers `false` even though the payload has
been moved out. -/
theorem unwrap_leaves_word_unchanged (b : AtomicOptionBox α) (v : α) (o : Ordering)
    (h : b.ptr = some v) :
    b.unwrap o = some (v, b) ∧ b.is_none = false := by
  cases b with
  | mk p =>
    cases p with
    | none => exact absurd h (by simp [AtomicOptionBox.ptr])
    | some w =>
      have hv : w = v := by simpa [AtomicOptionBox.ptr] using h
      subst hv
      exact ⟨rfl, rfl⟩

/-- Witness for C10 at a concrete slot holding `3`. -/
theorem unwrap_leaves_word_unchanged_witness :
    (AtomicOptionBox.mk (some (3 : Nat))).unwrap Ordering.Acquire
        = some (3, AtomicOptionBox.mk (some (3 : Nat)))
      ∧ (AtomicOptionBox.mk (some (3 : Nat))).is_none = false :=
  unwrap_leaves_word_unchanged (AtomicOptionBox.mk (some 3)) 3 Ordering.Acquire rfl

/-- C3 (refuted by the code).  The claim says the default constructors
terminate and yield empty containers; the committed constructors never
return at any recursion depth, because the struct update base
`..Default::default()` in `AtomicOptionBox::default` is a call of
`default` itself. -/
theorem default_constructors_never_return (α : Type) :
    (∀ fuel : Nat, AtomicOptionBox.defaultFuel α fuel = none)
      ∧ ∀ fuel : Nat, LifoPush.defaultFuel (α := α) fuel = none := by
  refine ⟨fun fuel => defaultFuel_never_returns fuel, fun fuel => ?_⟩
  simp [LifoPush.defaultFuel, defaultFuel_never_returns]

/-- C5 (refuted by the code).  The claim says `take` returns a handle
owning the exchanged out content; the committed `take` performs the
swap but then evaluates the struct update base `..Default::default()`,
which never returns, so `take` never returns the handle. -/
theorem take_never_returns (b : AtomicOptionBox α) (order : Ordering) :
    ∀ fuel : Nat, b.takeFuel order fuel = none := by
  intro fuel
  simp [AtomicOptionBox.takeFuel, defaultFuel_never_returns]

/-- C1 (refuted by the code).  The claim says every pushed value is
delivered to exactly one `pop_all` exactly once; the committed `push`
never completes (the `next` initializer of `Node::new` never returns),
so a pushed value is never linked and never delivered to any
invocation. -/
theorem push_never_returns (s : LifoPush α) (v : α) :
    ∀ fuel : Nat, s.pushFuel v fuel = none := by
  intro fuel
  simp [LifoPush.pushFuel, Node.newFuel, defaultFuel_never_returns]

/-- C2 (refuted by the code).  The claim says one `pop_all` delivers
the detached values most recently pushed first; the committed `pop_all`
never reaches its walk (its leading `take` never returns), so it
delivers nothing and never returns. -/
theorem pop_all_never_returns (s : LifoPush α) :
    ∀ fuel : Nat, s.popAllFuel fuel = none := by
  intro fuel
  simp [LifoPush.popAllFuel, AtomicOptionBox.takeFuel, defaultFuel_never_returns]

/-- C4 (refuted by the code).  The claim says `pop_all` returns, and
only after the consumer has been invoked on every detached value; the
committed `pop_all` never returns and never invokes the consumer, for
chains of every length. -/
theorem pop_all_f_never_returns (s : LifoPush α) (f : σ → α → σ) (acc : σ) :
    ∀ fuel : Nat, s.popAllFFuel f acc fuel = none := by
  intro fuel
  simp [LifoPush.popAllFFuel, AtomicOptionBox.takeFuel, defaultFuel_never_returns]

/-- C7 (refuted by the code).  The claim says `pop_all` on an empty
stack invokes the consumer zero times and leaves the stack empty; the
committed call indeed never invokes the consumer, but it also never
returns, already on the empty stack. -/
theorem pop_all_on_empty_never_returns (α : Type) :
    ∀ fuel : Nat,
      (LifoPush.mk (AtomicOptionBox.mk none) : LifoPush α).popAllFuel fuel = none := by
  intro fuel
  simp [LifoPush.popAllFuel, AtomicOptionBox.takeFuel, defaultFuel_never_returns]

/-- C9 (refuted by the code).  The claim says every run of the paper
scenario accumulates `134` or `201` and never crashes; the committed
scenario crashes at its very first step, `LifoPush::<i64>::default()`,
which never returns (stack overflow at runtime), before any push or
drain. -/
theorem paper_test_never_returns :
    ∀ fuel : Nat, LifoPush.defaultFuel (α := Int) fuel = none := by
  intro fuel
  simp [LifoPush.defaultFuel, defaultFuel_never_returns]

end Lifo
